import Mathlib

/-!
Verification of the zenox background-task supervisor.

The data model follows `src/background/types.ts`; the plugin event handler
and notification delivery follow the `event` hook in `index.ts`.  The
`BackgroundManager` class body (launch / cancel / handleSessionIdle and the
completion aggregator) is not part of the provided sources, so those
operations are modelled from the specification (sections 4.1 and 4.2) and
are marked as such in their doc comments.
-/

/-- TaskStatus from `src/background/types.ts`: running, completed, failed, cancelled. -/
inductive TaskStatus where
  | running
  | completed
  | failed
  | cancelled
deriving DecidableEq

/-- BackgroundTask record from `src/background/types.ts`.  Timestamps are
modelled as natural numbers; the optional `completedAt` and `error` fields
become `Option`. -/
structure BackgroundTask where
  id : String
  sessionID : String
  agent : String
  description : String
  prompt : String
  status : TaskStatus
  startedAt : Nat
  completedAt : Option Nat
  error : Option String
deriving DecidableEq

/-- LaunchInput from `src/background/types.ts`. -/
structure LaunchInput where
  agent : String
  prompt : String
  description : String
  parentSessionID : String
deriving DecidableEq

/-- SessionModel from the session context tracker (providerID and modelID). -/
structure SessionModel where
  providerID : String
  modelID : String
deriving DecidableEq

/-- CompletionNotification from `src/background/types.ts`, extended with the
captured parent agent/model context that the `event` hook in `index.ts` reads
as `notification.parentAgent` and `notification.parentModel` (the spec:
the notifier preserves the parent context captured when the batch ran). -/
structure CompletionNotification where
  allComplete : Bool
  message : String
  completedTasks : List BackgroundTask
  runningCount : Nat
  parentAgent : Option String
  parentModel : Option SessionModel
deriving DecidableEq

/-- Modelled from the spec: the supervisor state.  The task store is an
in-memory registry of task records; `batch` holds the ids of tasks that
reached a terminal state since the last all-complete report (cleared once
reported); `mainSession` is the single optional main-session pointer;
`parentAgent`/`parentModel` are the captured parent context; `nextId`
feeds task-id generation. -/
structure BackgroundManager where
  tasks : List BackgroundTask
  batch : List String
  mainSession : Option String
  parentAgent : Option String
  parentModel : Option SessionModel
  nextId : Nat
deriving DecidableEq

/-- A status is terminal when it is no longer `running`. -/
def isTerminal (s : TaskStatus) : Bool :=
  decide (s ≠ TaskStatus.running)

/-- Count of tasks still running (the aggregator computes runningCount). -/
def countRunning (ts : List BackgroundTask) : Nat :=
  (ts.filter (fun t => decide (t.status = TaskStatus.running))).length

/-- Lookup of the task whose child `sessionID` matches (first match). -/
def findTask : List BackgroundTask → String → Option BackgroundTask
  | [], _ => none
  | t :: ts, sid => if t.sessionID = sid then some t else findTask ts sid

/-- Lookup of a task by its task id (first match). -/
def findById : List BackgroundTask → String → Option BackgroundTask
  | [], _ => none
  | t :: ts, tid => if t.id = tid then some t else findById ts tid

/-- The terminal transition performed by the idle handler: status becomes
completed and `completedAt` is set. -/
def completeTask (t : BackgroundTask) (now : Nat) : BackgroundTask :=
  { t with status := TaskStatus.completed, completedAt := some now }

/-- Replace the first task whose `sessionID` matches by its completed
version; every other record is untouched. -/
def completeFirst : List BackgroundTask → String → Nat → List BackgroundTask
  | [], _, _ => []
  | t :: ts, sid, now =>
    if t.sessionID = sid then completeTask t now :: ts
    else t :: completeFirst ts sid now

/-- The terminal transition performed by cancel: status becomes cancelled
and `completedAt` is set. -/
def cancelTask (t : BackgroundTask) (now : Nat) : BackgroundTask :=
  { t with status := TaskStatus.cancelled, completedAt := some now }

/-- Replace the first running task whose id matches by its cancelled
version; terminal records are never modified. -/
def cancelFirst : List BackgroundTask → String → Nat → List BackgroundTask
  | [], _, _ => []
  | t :: ts, tid, now =>
    if t.id = tid then
      (if t.status = TaskStatus.running then cancelTask t now else t) :: ts
    else t :: cancelFirst ts tid now

/-- Modelled from the spec: status rendered for the summary message. -/
def statusText : TaskStatus → String
  | TaskStatus.running => "running"
  | TaskStatus.completed => "completed"
  | TaskStatus.failed => "failed"
  | TaskStatus.cancelled => "cancelled"

/-- Elapsed time of a task (completedAt - startedAt). -/
def elapsed (t : BackgroundTask) : Nat :=
  (t.completedAt.getD t.startedAt) - t.startedAt

/-- Modelled from the spec: one summary line per task with its description,
status and elapsed time; a task carrying an error has the error text
appended at the end of its line. -/
def taskLine (t : BackgroundTask) : String :=
  (t.description ++ " [" ++ statusText t.status ++ "] (" ++
    toString (elapsed t) ++ "ms)") ++
  (match t.error with
   | some e => " error: " ++ e
   | none => "")

/-- Join summary lines with newlines. -/
def joinLines : List String → String
  | [] => ""
  | [s] => s
  | s :: rest => s ++ "\n" ++ joinLines rest

/-- Modelled from the spec: compose the human-readable summary.  The final
summary announces completion; a partial-progress message states the
remaining running count.  Each batch task contributes one line. -/
def composeMessage (completedTasks : List BackgroundTask) (runningCount : Nat)
    (allComplete : Bool) : String :=
  (if allComplete then "All background tasks complete:\n"
   else toString runningCount ++ " background task(s) still running:\n") ++
  joinLines (completedTasks.map taskLine)

/-- Task ids are generated from the manager counter. -/
def freshId (m : BackgroundManager) : String :=
  "task-" ++ toString m.nextId

/-- Modelled from the spec (4.1): launch allocates a fresh task id and
creates a record with status running; the gateway outcome is passed in as
an `Except` (ok: the child sessionID, error: the failure text).  On gateway
failure the record is created synchronously with status failed, the error
text recorded, `completedAt` set (the record is terminal at creation) and
the task joins the current batch so the failure surfaces in the eventual
summary.  The task id is returned either way. -/
def launch (m : BackgroundManager) (input : LaunchInput) (now : Nat)
    (gateway : Except String String) : BackgroundManager × String :=
  let tid := freshId m
  match gateway with
  | Except.ok sid =>
    let task : BackgroundTask :=
      { id := tid, sessionID := sid, agent := input.agent,
        description := input.description, prompt := input.prompt,
        status := TaskStatus.running, startedAt := now,
        completedAt := none, error := none }
    ({ m with tasks := m.tasks ++ [task], nextId := m.nextId + 1 }, tid)
  | Except.error e =>
    let task : BackgroundTask :=
      { id := tid, sessionID := "", agent := input.agent,
        description := input.description, prompt := input.prompt,
        status := TaskStatus.failed, startedAt := now,
        completedAt := some now, error := some e }
    ({ m with tasks := m.tasks ++ [task], batch := m.batch ++ [tid],
              nextId := m.nextId + 1 }, tid)

/-- Modelled from the spec (4.1): cancel marks a running task cancelled
with `completedAt` set; a terminal or unknown task is left alone.  A
cancelled task reached a terminal state, so it joins the current batch. -/
def cancel (m : BackgroundManager) (tid : String) (now : Nat) : BackgroundManager :=
  match findById m.tasks tid with
  | some t =>
    if t.status = TaskStatus.running then
      { m with tasks := cancelFirst m.tasks tid now, batch := m.batch ++ [tid] }
    else m
  | none => m

/-- Modelled from the spec (4.1 and 4.2): the idle handler.  Look up the
task by child sessionID; unknown sessions and already-terminal tasks yield
no notification and leave the state untouched.  Otherwise the task is
completed, the aggregator computes the running count and the batch of
terminal tasks, and a notification is produced: all-complete exactly when
no task is left running, in which case the batch is cleared. -/
def handleSessionIdle (m : BackgroundManager) (sid : String) (now : Nat) :
    BackgroundManager × Option CompletionNotification :=
  match findTask m.tasks sid with
  | none => (m, none)
  | some t =>
    if t.status = TaskStatus.running then
      let tasks2 := completeFirst m.tasks sid now
      let batch2 := m.batch ++ [t.id]
      let rc := countRunning tasks2
      let cts := tasks2.filter (fun u => batch2.contains u.id)
      let ac := decide (rc = 0)
      ({ m with tasks := tasks2, batch := if ac then [] else batch2 },
       some { allComplete := ac,
              message := composeMessage cts rc ac,
              completedTasks := cts, runningCount := rc,
              parentAgent := m.parentAgent, parentModel := m.parentModel })
    else (m, none)

/-- Run a sequence of idle events, collecting the notifications yielded. -/
def runIdles (m : BackgroundManager) :
    List (String × Nat) → BackgroundManager × List CompletionNotification
  | [] => (m, [])
  | (sid, now) :: rest =>
    match handleSessionIdle m sid now with
    | (m2, some n) =>
      let r := runIdles m2 rest
      (r.1, n :: r.2)
    | (m2, none) => runIdles m2 rest

/-- Number of all-complete notifications in a list. -/
def countTrue (ns : List CompletionNotification) : Nat :=
  (ns.filter (fun n => n.allComplete)).length

/-- A supervisor operation: launch (with its gateway outcome), cancel, or
an inbound idle event. -/
inductive Op where
  | launch (input : LaunchInput) (now : Nat) (gateway : Except String String)
  | cancel (tid : String) (now : Nat)
  | idle (sid : String) (now : Nat)

/-- Apply one supervisor operation to the state. -/
def applyOp (m : BackgroundManager) : Op → BackgroundManager
  | Op.launch input now gw => (launch m input now gw).1
  | Op.cancel tid now => cancel m tid now
  | Op.idle sid now => (handleSessionIdle m sid now).1

/-- Run a sequence of supervisor operations. -/
def runOps (m : BackgroundManager) : List Op → BackgroundManager
  | [] => m
  | op :: rest => runOps (applyOp m op) rest

/-- Session info carried by session.created / session.deleted events, as the
`event` hook in `index.ts` reads it: both the id and the parentID may be
absent. -/
structure SessionInfo where
  id : Option String
  parentID : Option String
deriving DecidableEq

/-- JavaScript truthiness of an optional string: present and non-empty. -/
def jsTruthy : Option String → Bool
  | none => false
  | some s => decide (s ≠ "")

/-- The session.created branch of the `event` hook in `index.ts`: the main
session pointer is set to the new session id when the info carries a truthy
id and no truthy parentID; otherwise the pointer is unchanged. -/
def handleSessionCreated (m : BackgroundManager) (info : Option SessionInfo) :
    BackgroundManager :=
  match info with
  | none => m
  | some i =>
    if jsTruthy i.id && !jsTruthy i.parentID then { m with mainSession := i.id }
    else m

/-- The session.deleted branch of the `event` hook in `index.ts`: the main
session pointer is cleared when the deleted id is truthy and equals the
current pointer; otherwise the pointer is unchanged. -/
def handleSessionDeleted (m : BackgroundManager) (info : Option SessionInfo) :
    BackgroundManager :=
  match info.bind (fun i => i.id) with
  | some s =>
    if s ≠ "" ∧ m.mainSession = some s then { m with mainSession := none }
    else m
  | none => m

/-- Substring test on character lists (does the second list contain the
first as a contiguous run). -/
def containsSub (pat : List Char) : List Char → Bool
  | [] => pat.isEmpty
  | c :: rest => pat.isPrefixOf (c :: rest) || containsSub pat rest

/-- `errorMsg.includes(pat)` from `index.ts`, on the string level. -/
def strContains (s pat : String) : Bool :=
  containsSub pat.data s.data

/-- The retry predicate of `sendNotification` in `index.ts`: the error
message mentions agent, model or undefined. -/
def isContextError (msg : String) : Bool :=
  strContains msg "agent" || strContains msg "model" || strContains msg "undefined"

/-- One call to `ctx.client.session.prompt` as built by `sendNotification`
in `index.ts`: the target session, the noReply tag, the agent/model context
(absent when the retry omits it) and the message text. -/
structure PromptRequest where
  target : String
  noReply : Bool
  agent : Option String
  model : Option SessionModel
  text : String
deriving DecidableEq

/-- The request body built by `sendNotification` in `index.ts`:
noReply is the negation of allComplete, and the captured parent agent and
model are included unless the context is omitted on retry. -/
def buildRequest (mainSid : String) (n : CompletionNotification)
    (omitContext : Bool) : PromptRequest :=
  { target := mainSid,
    noReply := !n.allComplete,
    agent := if omitContext then none else n.parentAgent,
    model := if omitContext then none else n.parentModel,
    text := n.message }

/-- `sendNotification` from `index.ts`.  The external prompt endpoint is
modelled as a function from requests to an optional error message (none
means success).  The result is the list of attempted calls: on success one
call; on a context error exactly one retry with the context omitted (its
own outcome is swallowed); on any other error no retry. -/
def sendNotification (gw : PromptRequest → Option String) (mainSid : String)
    (n : CompletionNotification) : List PromptRequest :=
  match gw (buildRequest mainSid n false) with
  | none => [buildRequest mainSid n false]
  | some errMsg =>
    if isContextError errMsg
    then [buildRequest mainSid n false, buildRequest mainSid n true]
    else [buildRequest mainSid n false]

/-- Observable outcome of one session.idle event in the `event` hook of
`index.ts`: the resulting manager state, the prompt calls attempted, and
whether the todo-continuation hook ran. -/
structure IdleOutcome where
  manager : BackgroundManager
  deliveries : List PromptRequest
  todoRan : Bool
deriving DecidableEq

/-- The session.idle branch of the `event` hook in `index.ts`.  A missing
sessionID returns early.  Otherwise `handleSessionIdle` runs first; when it
yields a notification the main-session pointer is read, delivery happens
only when it is set, and the todo-continuation hook is skipped; when it
yields nothing the todo-continuation hook runs. -/
def handleIdleEvent (gw : PromptRequest → Option String) (m : BackgroundManager)
    (sid : Option String) (now : Nat) : IdleOutcome :=
  match sid with
  | none => { manager := m, deliveries := [], todoRan := false }
  | some s =>
    match handleSessionIdle m s now with
    | (m2, some n) =>
      match m2.mainSession with
      | some mainSid =>
        { manager := m2, deliveries := sendNotification gw mainSid n, todoRan := false }
      | none => { manager := m2, deliveries := [], todoRan := false }
    | (m2, none) => { manager := m2, deliveries := [], todoRan := true }

/-- The completedAt discipline: `completedAt` is present exactly when the
status is terminal. -/
def completedAtInv (t : BackgroundTask) : Prop :=
  t.completedAt.isSome = isTerminal t.status

instance (t : BackgroundTask) : Decidable (completedAtInv t) :=
  inferInstanceAs (Decidable (_ = _))

/-- A sample running task (used by concrete witnesses). -/
def exTask1 : BackgroundTask :=
  { id := "task-0", sessionID := "s1", agent := "explorer", description := "find auth",
    prompt := "p1", status := TaskStatus.running, startedAt := 0,
    completedAt := none, error := none }

/-- A second sample running task. -/
def exTask2 : BackgroundTask :=
  { id := "task-1", sessionID := "s2", agent := "oracle", description := "analyze",
    prompt := "p2", status := TaskStatus.running, startedAt := 0,
    completedAt := none, error := none }

/-- A sample task whose launch failed at the gateway. -/
def exFailed : BackgroundTask :=
  { id := "task-9", sessionID := "", agent := "librarian", description := "research",
    prompt := "p3", status := TaskStatus.failed, startedAt := 0,
    completedAt := some 0, error := some "boom" }

/-- A supervisor state with two running tasks. -/
def exMgr : BackgroundManager :=
  { tasks := [exTask1, exTask2], batch := [], mainSession := some "main",
    parentAgent := some "build", parentModel := none, nextId := 2 }

/-- A supervisor state with one failed task already in the batch and one
running task. -/
def exMgrFail : BackgroundManager :=
  { tasks := [exFailed, exTask1], batch := ["task-9"], mainSession := some "main",
    parentAgent := some "build", parentModel := none, nextId := 10 }

/-- A supervisor state with a running task but no main-session pointer. -/
def exMgrNoMain : BackgroundManager :=
  { tasks := [exTask1], batch := [], mainSession := none,
    parentAgent := none, parentModel := none, nextId := 1 }

/-- Fallback notification value. -/
def exNotifDefault : CompletionNotification :=
  { allComplete := false, message := "", completedTasks := [], runningCount := 0,
    parentAgent := none, parentModel := none }

/-- The notification produced by resolving the running task of `exMgrFail`. -/
def exNotifFail : CompletionNotification :=
  (handleSessionIdle exMgrFail "s1" 5).2.getD exNotifDefault

/-- The notification produced by resolving the running task of `exMgrNoMain`. -/
def exNotifNoMain : CompletionNotification :=
  (handleSessionIdle exMgrNoMain "s1" 5).2.getD exNotifDefault

/-- A prompt endpoint that rejects any call carrying an agent context with
an undefined-context error and accepts calls without one. -/
def exGatewayCtxErr : PromptRequest → Option String :=
  fun r => if r.agent.isSome then some "agent is undefined" else none

/-- A sample notification carrying a parent agent context. -/
def exNotifSimple : CompletionNotification :=
  { allComplete := true, message := "done", completedTasks := [], runningCount := 0,
    parentAgent := some "build", parentModel := none }

/-- Sample session info for a freshly created top-level session. -/
def exInfoNew : SessionInfo := { id := some "new", parentID := none }

/-- Sample session info naming the current main session. -/
def exInfoDel : SessionInfo := { id := some "main", parentID := none }

theorem findTask_mem {l : List BackgroundTask} {sid : String} {t : BackgroundTask}
    (h : findTask l sid = some t) : t ∈ l ∧ t.sessionID = sid := by
  induction l with
  | nil => simp [findTask] at h
  | cons a as ih =>
    simp only [findTask] at h
    split at h
    · obtain rfl := Option.some.inj h
      exact ⟨List.mem_cons_self _ _, by assumption⟩
    · rcases ih h with ⟨hm, hs⟩
      exact ⟨List.mem_cons_of_mem _ hm, hs⟩

theorem countRunning_pos_of_mem {l : List BackgroundTask} {t : BackgroundTask}
    (hm : t ∈ l) (hr : t.status = TaskStatus.running) : 0 < countRunning l := by
  induction l with
  | nil => simp at hm
  | cons a as ih =>
    rcases List.mem_cons.1 hm with rfl | hm2
    · simp [countRunning, List.filter, hr]
    · simp only [countRunning, List.filter]
      split
      · simp
      · exact ih hm2

theorem countRunning_completeFirst {l : List BackgroundTask} {sid : String}
    {t : BackgroundTask} (now : Nat) (h : findTask l sid = some t)
    (hr : t.status = TaskStatus.running) :
    countRunning (completeFirst l sid now) + 1 = countRunning l := by
  induction l with
  | nil => simp [findTask] at h
  | cons a as ih =>
    simp only [findTask] at h
    by_cases hs : a.sessionID = sid
    · rw [if_pos hs] at h
      obtain rfl := Option.some.inj h
      simp [completeFirst, hs, countRunning, List.filter, completeTask, hr]
    · rw [if_neg hs] at h
      simp only [completeFirst, hs, ite_false, if_neg]
      simp only [countRunning, List.filter]
      split
      · simpa [countRunning] using congrArg Nat.succ (by
          simpa [countRunning] using ih h)
      · exact ih h

theorem findTask_completeFirst {l : List BackgroundTask} {sid : String}
    {t : BackgroundTask} (now : Nat) (h : findTask l sid = some t) :
    findTask (completeFirst l sid now) sid = some (completeTask t now) := by
  induction l with
  | nil => simp [findTask] at h
  | cons a as ih =>
    simp only [findTask] at h
    by_cases hs : a.sessionID = sid
    · rw [if_pos hs] at h
      obtain rfl := Option.some.inj h
      simp [completeFirst, hs, findTask, completeTask]
    · rw [if_neg hs] at h
      simp [completeFirst, hs, findTask, ih h]

theorem mem_completeFirst_of_terminal {l : List BackgroundTask} {sid : String}
    {t u : BackgroundTask} (now : Nat) (h : findTask l sid = some t)
    (hr : t.status = TaskStatus.running) (hu : u ∈ l)
    (hterm : isTerminal u.status = true) : u ∈ completeFirst l sid now := by
  induction l with
  | nil => simp at hu
  | cons a as ih =>
    simp only [findTask] at h
    by_cases hs : a.sessionID = sid
    · rw [if_pos hs] at h
      obtain rfl := Option.some.inj h
      rcases List.mem_cons.1 hu with rfl | hm2
      · exfalso
        simp [isTerminal, hr] at hterm
      · simp [completeFirst, hs]
        exact Or.inr hm2
    · rw [if_neg hs] at h
      rcases List.mem_cons.1 hu with rfl | hm2
      · simp [completeFirst, hs]
      · simp [completeFirst, hs]
        exact Or.inr (ih h hm2)

theorem mem_of_mem_completeFirst {l : List BackgroundTask} {sid : String}
    {u : BackgroundTask} (now : Nat) (hu : u ∈ completeFirst l sid now) :
    u ∈ l ∨ ∃ v, v ∈ l ∧ u = completeTask v now := by
  induction l with
  | nil => simp [completeFirst] at hu
  | cons a as ih =>
    simp only [completeFirst] at hu
    by_cases hs : a.sessionID = sid
    · rw [if_pos hs] at hu
      rcases List.mem_cons.1 hu with rfl | hm2
      · exact Or.inr ⟨a, List.mem_cons_self _ _, rfl⟩
      · exact Or.inl (List.mem_cons_of_mem _ hm2)
    · rw [if_neg hs] at hu
      rcases List.mem_cons.1 hu with rfl | hm2
      · exact Or.inl (List.mem_cons_self _ _)
      · rcases ih hm2 with hin | ⟨v, hv, he⟩
        · exact Or.inl (List.mem_cons_of_mem _ hin)
        · exact Or.inr ⟨v, List.mem_cons_of_mem _ hv, he⟩

theorem mem_cancelFirst_of_terminal {l : List BackgroundTask} {tid : String}
    {u : BackgroundTask} (now : Nat) (hu : u ∈ l)
    (hterm : isTerminal u.status = true) : u ∈ cancelFirst l tid now := by
  induction l with
  | nil => simp at hu
  | cons a as ih =>
    simp only [cancelFirst]
    by_cases hi : a.id = tid
    · rcases List.mem_cons.1 hu with rfl | hm2
      · have hnr : ¬ u.status = TaskStatus.running := by
          simp [isTerminal] at hterm
          exact hterm
        simp [hi, hnr]
      · simp [hi]
        exact Or.inr hm2
    · rcases List.mem_cons.1 hu with rfl | hm2
      · simp [hi]
      · simp [hi]
        exact Or.inr (ih hm2)

theorem mem_of_mem_cancelFirst {l : List BackgroundTask} {tid : String}
    {u : BackgroundTask} (now : Nat) (hu : u ∈ cancelFirst l tid now) :
    u ∈ l ∨ ∃ v, v ∈ l ∧ u = cancelTask v now := by
  induction l with
  | nil => simp [cancelFirst] at hu
  | cons a as ih =>
    simp only [cancelFirst] at hu
    by_cases hi : a.id = tid
    · rw [if_pos hi] at hu
      rcases List.mem_cons.1 hu with h1 | hm2
      · by_cases hrun : a.status = TaskStatus.running
        · rw [if_pos hrun] at h1
          exact Or.inr ⟨a, List.mem_cons_self _ _, h1⟩
        · rw [if_neg hrun] at h1
          exact Or.inl (h1 ▸ List.mem_cons_self _ _)
      · exact Or.inl (List.mem_cons_of_mem _ hm2)
    · rw [if_neg hi] at hu
      rcases List.mem_cons.1 hu with rfl | hm2
      · exact Or.inl (List.mem_cons_self _ _)
      · rcases ih hm2 with hin | ⟨v, hv, he⟩
        · exact Or.inl (List.mem_cons_of_mem _ hin)
        · exact Or.inr ⟨v, List.mem_cons_of_mem _ hv, he⟩

theorem handleSessionIdle_not_found {m : BackgroundManager} {sid : String} (now : Nat)
    (hf : findTask m.tasks sid = none) : handleSessionIdle m sid now = (m, none) := by
  simp [handleSessionIdle, hf]

theorem handleSessionIdle_terminal {m : BackgroundManager} {sid : String}
    {t : BackgroundTask} (now : Nat) (hf : findTask m.tasks sid = some t)
    (hr : ¬ t.status = TaskStatus.running) : handleSessionIdle m sid now = (m, none) := by
  simp [handleSessionIdle, hf, hr]

theorem handleSessionIdle_running_eq {m : BackgroundManager} {sid : String}
    {t : BackgroundTask} (now : Nat) (hf : findTask m.tasks sid = some t)
    (hr : t.status = TaskStatus.running) :
    handleSessionIdle m sid now =
      ({ m with tasks := completeFirst m.tasks sid now,
                batch := if decide (countRunning (completeFirst m.tasks sid now) = 0)
                         then [] else m.batch ++ [t.id] },
       some { allComplete := decide (countRunning (completeFirst m.tasks sid now) = 0),
              message := composeMessage
                ((completeFirst m.tasks sid now).filter
                  (fun u => (m.batch ++ [t.id]).contains u.id))
                (countRunning (completeFirst m.tasks sid now))
                (decide (countRunning (completeFirst m.tasks sid now) = 0)),
              completedTasks := (completeFirst m.tasks sid now).filter
                (fun u => (m.batch ++ [t.id]).contains u.id),
              runningCount := countRunning (completeFirst m.tasks sid now),
              parentAgent := m.parentAgent, parentModel := m.parentModel }) := by
  simp [handleSessionIdle, hf, hr]

theorem handleSessionIdle_none_state {m m2 : BackgroundManager} {sid : String} {now : Nat}
    (h : handleSessionIdle m sid now = (m2, none)) : m2 = m := by
  cases hf : findTask m.tasks sid with
  | none =>
    rw [handleSessionIdle_not_found now hf] at h
    exact (Prod.mk.injEq _ _ _ _ ▸ h).1.symm
  | some t =>
    by_cases hr : t.status = TaskStatus.running
    · rw [handleSessionIdle_running_eq now hf hr] at h
      simp at h
    · rw [handleSessionIdle_terminal now hf hr] at h
      exact (Prod.mk.injEq _ _ _ _ ▸ h).1.symm

theorem handleSessionIdle_some_facts {m m2 : BackgroundManager} {sid : String} {now : Nat}
    {n : CompletionNotification} (h : handleSessionIdle m sid now = (m2, some n)) :
    countRunning m2.tasks + 1 = countRunning m.tasks
    ∧ n.runningCount = countRunning m2.tasks
    ∧ n.allComplete = decide (countRunning m2.tasks = 0)
    ∧ m2.mainSession = m.mainSession
    ∧ n.message = composeMessage n.completedTasks n.runningCount n.allComplete
    ∧ ∃ t, findTask m.tasks sid = some t ∧ t.status = TaskStatus.running
        ∧ m2.tasks = completeFirst m.tasks sid now := by
  cases hf : findTask m.tasks sid with
  | none =>
    rw [handleSessionIdle_not_found now hf] at h
    simp at h
  | some t =>
    by_cases hr : t.status = TaskStatus.running
    · rw [handleSessionIdle_running_eq now hf hr] at h
      injection h with h1 h2
      injection h2 with h2
      subst h1
      subst h2
      refine ⟨?_, rfl, rfl, rfl, rfl, t, rfl, hr, rfl⟩
      exact countRunning_completeFirst now hf hr
    · rw [handleSessionIdle_terminal now hf hr] at h
      simp at h

theorem handleSessionIdle_zero {m : BackgroundManager} (sid : String) (now : Nat)
    (hz : countRunning m.tasks = 0) : handleSessionIdle m sid now = (m, none) := by
  cases hf : findTask m.tasks sid with
  | none => exact handleSessionIdle_not_found now hf
  | some t =>
    by_cases hr : t.status = TaskStatus.running
    · exfalso
      have := countRunning_pos_of_mem (findTask_mem hf).1 hr
      omega
    · exact handleSessionIdle_terminal now hf hr

theorem runIdles_zero (m : BackgroundManager) (evts : List (String × Nat))
    (hz : countRunning m.tasks = 0) : runIdles m evts = (m, []) := by
  induction evts with
  | nil => rfl
  | cons e rest ih =>
    obtain ⟨sid, now⟩ := e
    simp [runIdles, handleSessionIdle_zero sid now hz, ih]

theorem countTrue_runIdles (m : BackgroundManager) (evts : List (String × Nat)) :
    countTrue (runIdles m evts).2 =
      if 0 < countRunning m.tasks ∧ countRunning (runIdles m evts).1.tasks = 0
      then 1 else 0 := by
  induction evts generalizing m with
  | nil =>
    simp only [runIdles, countTrue, List.filter, List.length_nil]
    split
    · omega
    · rfl
  | cons e rest ih =>
    obtain ⟨sid, now⟩ := e
    rcases hh : handleSessionIdle m sid now with ⟨m2, ores⟩
    cases ores with
    | none =>
      have hm2 : m2 = m := handleSessionIdle_none_state hh
      have hstep : runIdles m ((sid, now) :: rest) = runIdles m2 rest := by
        simp [runIdles, hh]
      rw [hstep, hm2]
      exact ih m
    | some n =>
      obtain ⟨hcnt, hrc, hac, -, -, -⟩ := handleSessionIdle_some_facts hh
      have hstep : runIdles m ((sid, now) :: rest)
          = ((runIdles m2 rest).1, n :: (runIdles m2 rest).2) := by
        simp [runIdles, hh]
      rw [hstep]
      by_cases hz : countRunning m2.tasks = 0
      · have hrz := runIdles_zero m2 rest hz
        have hactrue : n.allComplete = true := by rw [hac]; simp [hz]
        rw [hrz]
        simp only [countTrue, List.filter, hactrue, List.length_cons, List.length_nil]
        rw [if_pos]
        constructor
        · omega
        · exact hz
      · have hacfalse : n.allComplete = false := by rw [hac]; simp [hz]
        have hct : countTrue (n :: (runIdles m2 rest).2) = countTrue (runIdles m2 rest).2 := by
          simp [countTrue, List.filter, hacfalse]
        rw [hct, ih m2]
        have hpos : 0 < countRunning m.tasks := by omega
        have hpos2 : 0 < countRunning m2.tasks := by omega
        by_cases hfin : countRunning (runIdles m2 rest).1.tasks = 0
        · rw [if_pos ⟨hpos2, hfin⟩, if_pos ⟨hpos, hfin⟩]
        · rw [if_neg (fun hcon => hfin hcon.2), if_neg (fun hcon => hfin hcon.2)]

theorem runIdles_notif_allComplete {m : BackgroundManager} {evts : List (String × Nat)}
    {n : CompletionNotification} (hn : n ∈ (runIdles m evts).2) :
    n.allComplete = true ↔ n.runningCount = 0 := by
  induction evts generalizing m with
  | nil => simp [runIdles] at hn
  | cons e rest ih =>
    obtain ⟨sid, now⟩ := e
    rcases hh : handleSessionIdle m sid now with ⟨m2, ores⟩
    cases ores with
    | none =>
      have hstep : runIdles m ((sid, now) :: rest) = runIdles m2 rest := by
        simp [runIdles, hh]
      rw [hstep] at hn
      exact ih hn
    | some n2 =>
      have hstep : runIdles m ((sid, now) :: rest)
          = ((runIdles m2 rest).1, n2 :: (runIdles m2 rest).2) := by
        simp [runIdles, hh]
      rw [hstep] at hn
      rcases List.mem_cons.1 hn with rfl | hn2
      · obtain ⟨-, hrc, hac, -⟩ := handleSessionIdle_some_facts hh
        rw [hac, hrc]
        simp
      · exact ih hn2

theorem cancel_found_running {m : BackgroundManager} {tid : String} {t : BackgroundTask}
    (now : Nat) (hf : findById m.tasks tid = some t) (hr : t.status = TaskStatus.running) :
    cancel m tid now = { m with tasks := cancelFirst m.tasks tid now, batch := m.batch ++ [tid] } := by
  simp [cancel, hf, hr]

theorem cancel_not_running {m : BackgroundManager} {tid : String} {t : BackgroundTask}
    (now : Nat) (hf : findById m.tasks tid = some t) (hr : ¬ t.status = TaskStatus.running) :
    cancel m tid now = m := by
  simp [cancel, hf, hr]

theorem cancel_not_found {m : BackgroundManager} {tid : String} (now : Nat)
    (hf : findById m.tasks tid = none) : cancel m tid now = m := by
  simp [cancel, hf]

theorem idle_preserves_terminal {m : BackgroundManager} {u : BackgroundTask}
    (sid : String) (now : Nat) (hu : u ∈ m.tasks) (hterm : isTerminal u.status = true) :
    u ∈ (handleSessionIdle m sid now).1.tasks := by
  cases hf : findTask m.tasks sid with
  | none => rw [handleSessionIdle_not_found now hf]; exact hu
  | some t =>
    by_cases hr : t.status = TaskStatus.running
    · rw [handleSessionIdle_running_eq now hf hr]
      exact mem_completeFirst_of_terminal now hf hr hu hterm
    · rw [handleSessionIdle_terminal now hf hr]; exact hu

theorem applyOp_preserves_terminal {m : BackgroundManager} {u : BackgroundTask}
    (op : Op) (hu : u ∈ m.tasks) (hterm : isTerminal u.status = true) :
    u ∈ (applyOp m op).tasks := by
  cases op with
  | launch input now gw =>
    cases gw with
    | ok sid => simp [applyOp, launch]; exact Or.inl hu
    | error e => simp [applyOp, launch]; exact Or.inl hu
  | cancel tid now =>
    simp only [applyOp]
    cases hf : findById m.tasks tid with
    | none => rw [cancel_not_found now hf]; exact hu
    | some t =>
      by_cases hr : t.status = TaskStatus.running
      · rw [cancel_found_running now hf hr]
        exact mem_cancelFirst_of_terminal now hu hterm
      · rw [cancel_not_running now hf hr]; exact hu
  | idle sid now => exact idle_preserves_terminal sid now hu hterm

theorem runOps_preserves_terminal {m : BackgroundManager} {u : BackgroundTask}
    (ops : List Op) (hu : u ∈ m.tasks) (hterm : isTerminal u.status = true) :
    u ∈ (runOps m ops).tasks := by
  induction ops generalizing m with
  | nil => exact hu
  | cons op rest ih => exact ih (applyOp_preserves_terminal op hu hterm)

theorem runIdles_preserves_terminal {m : BackgroundManager} {u : BackgroundTask}
    (evts : List (String × Nat)) (hu : u ∈ m.tasks) (hterm : isTerminal u.status = true) :
    u ∈ (runIdles m evts).1.tasks := by
  induction evts generalizing m with
  | nil => exact hu
  | cons e rest ih =>
    obtain ⟨sid, now⟩ := e
    rcases hh : handleSessionIdle m sid now with ⟨m2, ores⟩
    have hm2 : u ∈ m2.tasks := by
      have := idle_preserves_terminal sid now hu hterm
      rw [hh] at this
      exact this
    cases ores with
    | none =>
      have hstep : runIdles m ((sid, now) :: rest) = runIdles m2 rest := by
        simp [runIdles, hh]
      rw [hstep]
      exact ih hm2
    | some n =>
      have hstep : runIdles m ((sid, now) :: rest)
          = ((runIdles m2 rest).1, n :: (runIdles m2 rest).2) := by
        simp [runIdles, hh]
      rw [hstep]
      exact ih hm2

theorem completedAtInv_completeTask (t : BackgroundTask) (now : Nat) :
    completedAtInv (completeTask t now) := by
  simp [completedAtInv, completeTask, isTerminal]

theorem completedAtInv_cancelTask (t : BackgroundTask) (now : Nat) :
    completedAtInv (cancelTask t now) := by
  simp [completedAtInv, cancelTask, isTerminal]

theorem applyOp_preserves_inv {m : BackgroundManager}
    (op : Op) (hinv : ∀ u ∈ m.tasks, completedAtInv u) :
    ∀ u ∈ (applyOp m op).tasks, completedAtInv u := by
  intro u hu
  cases op with
  | launch input now gw =>
    cases gw with
    | ok sid =>
      simp [applyOp, launch] at hu
      rcases hu with hin | rfl
      · exact hinv u hin
      · simp [completedAtInv, isTerminal]
    | error e =>
      simp [applyOp, launch] at hu
      rcases hu with hin | rfl
      · exact hinv u hin
      · simp [completedAtInv, isTerminal]
  | cancel tid now =>
    simp only [applyOp] at hu
    cases hf : findById m.tasks tid with
    | none => rw [cancel_not_found now hf] at hu; exact hinv u hu
    | some t =>
      by_cases hr : t.status = TaskStatus.running
      · rw [cancel_found_running now hf hr] at hu
        simp only at hu
        rcases mem_of_mem_cancelFirst now hu with hin | ⟨v, hv, rfl⟩
        · exact hinv u hin
        · exact completedAtInv_cancelTask v now
      · rw [cancel_not_running now hf hr] at hu
        exact hinv u hu
  | idle sid now =>
    simp only [applyOp] at hu
    cases hf : findTask m.tasks sid with
    | none => rw [handleSessionIdle_not_found now hf] at hu; exact hinv u hu
    | some t =>
      by_cases hr : t.status = TaskStatus.running
      · rw [handleSessionIdle_running_eq now hf hr] at hu
        simp only at hu
        rcases mem_of_mem_completeFirst now hu with hin | ⟨v, hv, rfl⟩
        · exact hinv u hin
        · exact completedAtInv_completeTask v now
      · rw [handleSessionIdle_terminal now hf hr] at hu
        exact hinv u hu

theorem runOps_preserves_inv {m : BackgroundManager}
    (ops : List Op) (hinv : ∀ u ∈ m.tasks, completedAtInv u) :
    ∀ u ∈ (runOps m ops).tasks, completedAtInv u := by
  induction ops generalizing m with
  | nil => exact hinv
  | cons op rest ih => exact ih (applyOp_preserves_inv op hinv)

theorem joinLines_cons₂ (a b : String) (bs : List String) :
    joinLines (a :: b :: bs) = a ++ "\n" ++ joinLines (b :: bs) := rfl

theorem joinLines_mem {l : List String} {s : String} (hs : s ∈ l) :
    ∃ p q, joinLines l = p ++ (s ++ q) := by
  induction l with
  | nil => simp at hs
  | cons a as ih =>
    rcases List.mem_cons.1 hs with rfl | hm
    · cases as with
      | nil => exact ⟨"", "", by simp [joinLines, String.empty_append, String.append_empty]⟩
      | cons b bs =>
        refine ⟨"", "\n" ++ joinLines (b :: bs), ?_⟩
        rw [joinLines_cons₂, String.empty_append, String.append_assoc]
    · cases as with
      | nil => simp at hm
      | cons b bs =>
        obtain ⟨p, q, hpq⟩ := ih hm
        refine ⟨a ++ "\n" ++ p, q, ?_⟩
        rw [joinLines_cons₂, hpq]
        simp only [String.append_assoc]

theorem taskLine_error {t : BackgroundTask} {e : String} (he : t.error = some e) :
    ∃ p, taskLine t = p ++ e := by
  refine ⟨(t.description ++ " [" ++ statusText t.status ++ "] (" ++
    toString (elapsed t) ++ "ms)") ++ " error: ", ?_⟩
  simp only [taskLine, he]
  simp only [String.append_assoc]

theorem composeMessage_error {cts : List BackgroundTask} {t : BackgroundTask}
    {e : String} (rc : Nat) (ac : Bool) (hm : t ∈ cts) (he : t.error = some e) :
    ∃ p q, composeMessage cts rc ac = p ++ (e ++ q) := by
  obtain ⟨p0, hline⟩ := taskLine_error he
  have hmem : taskLine t ∈ cts.map taskLine := List.mem_map_of_mem taskLine hm
  obtain ⟨p, q, hpq⟩ := joinLines_mem hmem
  refine ⟨(if ac then "All background tasks complete:\n"
    else toString rc ++ " background task(s) still running:\n") ++ (p ++ p0), q, ?_⟩
  rw [composeMessage, hpq, hline]
  simp only [String.append_assoc]

/-- C1: for a batch of tasks still running in the store, a sequence of
idle-handler calls that resolves them all yields exactly one notification
with allComplete true, and every yielded notification is all-complete
exactly when it reports zero remaining running tasks — so the all-complete
result appears exactly on the call that resolved the last running task,
never earlier and never later. -/
theorem batch_single_allComplete (m : BackgroundManager) (evts : List (String × Nat))
    (hstart : 0 < countRunning m.tasks)
    (hresolve : countRunning (runIdles m evts).1.tasks = 0) :
    countTrue (runIdles m evts).2 = 1
    ∧ ∀ n ∈ (runIdles m evts).2, (n.allComplete = true ↔ n.runningCount = 0) := by
  constructor
  · rw [countTrue_runIdles, if_pos ⟨hstart, hresolve⟩]
  · intro n hn
    exact runIdles_notif_allComplete hn

/-- C1 witness: two running tasks resolved by two idle events produce
exactly one all-complete notification. -/
theorem batch_single_allComplete_witness :
    countTrue (runIdles exMgr [("s1", 1), ("s2", 2)]).2 = 1
    ∧ ∀ n ∈ (runIdles exMgr [("s1", 1), ("s2", 2)]).2,
        (n.allComplete = true ↔ n.runningCount = 0) :=
  batch_single_allComplete exMgr [("s1", 1), ("s2", 2)] (by decide) (by decide)

/-- C2: the idle handler is idempotent per child session: on a session whose
task is still running the first call performs the terminal transition and
returns a notification, and a second call with the same sessionID returns
none and leaves the state unchanged. -/
theorem handleSessionIdle_idempotent (m : BackgroundManager) (sid : String)
    (now now2 : Nat) (t : BackgroundTask)
    (hf : findTask m.tasks sid = some t) (hr : t.status = TaskStatus.running) :
    ((handleSessionIdle m sid now).2.isSome = true)
    ∧ findTask (handleSessionIdle m sid now).1.tasks sid = some (completeTask t now)
    ∧ handleSessionIdle (handleSessionIdle m sid now).1 sid now2
        = ((handleSessionIdle m sid now).1, none) := by
  rw [handleSessionIdle_running_eq now hf hr]
  refine ⟨rfl, ?_, ?_⟩
  · exact findTask_completeFirst now hf
  · apply handleSessionIdle_terminal (t := completeTask t now) now2
    · exact findTask_completeFirst now hf
    · simp [completeTask]

/-- C2 witness: concrete first and second idle calls for the same child
session. -/
theorem handleSessionIdle_idempotent_witness :
    ((handleSessionIdle exMgr "s1" 1).2.isSome = true)
    ∧ findTask (handleSessionIdle exMgr "s1" 1).1.tasks "s1" = some (completeTask exTask1 1)
    ∧ handleSessionIdle (handleSessionIdle exMgr "s1" 1).1 "s1" 2
        = ((handleSessionIdle exMgr "s1" 1).1, none) :=
  handleSessionIdle_idempotent exMgr "s1" 1 2 exTask1 (by decide) (by decide)

/-- C3: over any sequence of supervisor operations (launch, cancel, idle),
a task record that is terminal persists unchanged in the store — once the
status leaves running it never changes again — and the discipline that
`completedAt` is present exactly for terminal statuses is preserved for
every task in the store. -/
theorem status_monotonic (m : BackgroundManager) (ops : List Op)
    (t : BackgroundTask) (hmem : t ∈ m.tasks) (hterm : isTerminal t.status = true)
    (hinv : ∀ u ∈ m.tasks, completedAtInv u) :
    t ∈ (runOps m ops).tasks ∧ ∀ u ∈ (runOps m ops).tasks, completedAtInv u :=
  ⟨runOps_preserves_terminal ops hmem hterm, runOps_preserves_inv ops hinv⟩

/-- C3 witness: a failed record survives an idle event, a cancel and a new
launch, and the completedAt discipline holds throughout. -/
theorem status_monotonic_witness :
    exFailed ∈ (runOps exMgrFail
      [Op.idle "s1" 5, Op.cancel "task-0" 6,
       Op.launch { agent := "explorer", prompt := "p", description := "d",
                   parentSessionID := "main" } 7 (Except.error "down")]).tasks
    ∧ ∀ u ∈ (runOps exMgrFail
      [Op.idle "s1" 5, Op.cancel "task-0" 6,
       Op.launch { agent := "explorer", prompt := "p", description := "d",
                   parentSessionID := "main" } 7 (Except.error "down")]).tasks,
        completedAtInv u :=
  status_monotonic exMgrFail
    [Op.idle "s1" 5, Op.cancel "task-0" 6,
     Op.launch { agent := "explorer", prompt := "p", description := "d",
                 parentSessionID := "main" } 7 (Except.error "down")]
    exFailed (by decide) (by decide) (by decide)

/-- C5: when the idle handler yields a notification whose batch contains a
failed task, the composed summary message contains that task's error text
as a substring. -/
theorem summary_includes_error (m m2 : BackgroundManager) (sid : String) (now : Nat)
    (n : CompletionNotification) (t : BackgroundTask) (e : String)
    (hn : handleSessionIdle m sid now = (m2, some n))
    (hmem : t ∈ n.completedTasks) (hfail : t.status = TaskStatus.failed)
    (herr : t.error = some e) :
    ∃ p q, n.message = p ++ (e ++ q) := by
  obtain ⟨-, -, -, -, hmsg, -⟩ := handleSessionIdle_some_facts hn
  rw [hmsg]
  exact composeMessage_error n.runningCount n.allComplete hmem herr

/-- C5 witness: the final summary for a batch with a failed task contains
the text of its error. -/
theorem summary_includes_error_witness :
    ∃ p q, exNotifFail.message = p ++ ("boom" ++ q) :=
  summary_includes_error exMgrFail (handleSessionIdle exMgrFail "s1" 5).1 "s1" 5
    exNotifFail exFailed "boom" (by decide) (by decide) (by decide) (by decide)

theorem findTask_eq_none {l : List BackgroundTask} {sid : String}
    (h : ∀ t ∈ l, ¬ t.sessionID = sid) : findTask l sid = none := by
  induction l with
  | nil => rfl
  | cons a as ih =>
    simp only [findTask]
    rw [if_neg (h a (List.mem_cons_self _ _))]
    exact ih (fun t ht => h t (List.mem_cons_of_mem _ ht))

/-- C6: an idle event for a sessionID no task was launched with yields no
notification and leaves the state untouched; the event hook then runs the
todo-continuation logic, and in general the todo-continuation logic runs
exactly when the idle handler yielded no notification. -/
theorem unknown_session_passthrough (m : BackgroundManager) (sid : String) (now : Nat)
    (h : ∀ t ∈ m.tasks, ¬ t.sessionID = sid) :
    handleSessionIdle m sid now = (m, none)
    ∧ (∀ gw, handleIdleEvent gw m (some sid) now
        = { manager := m, deliveries := [], todoRan := true })
    ∧ ∀ (gw : PromptRequest → Option String) (m2 : BackgroundManager)
        (s : String) (n2 : Nat),
        ((handleIdleEvent gw m2 (some s) n2).todoRan = true
          ↔ (handleSessionIdle m2 s n2).2 = none) := by
  have hnone : handleSessionIdle m sid now = (m, none) :=
    handleSessionIdle_not_found now (findTask_eq_none h)
  refine ⟨hnone, ?_, ?_⟩
  · intro gw
    simp [handleIdleEvent, hnone]
  · intro gw m2 s n2
    rcases hh : handleSessionIdle m2 s n2 with ⟨m3, ores⟩
    cases ores with
    | none => simp [handleIdleEvent, hh]
    | some n =>
      cases hms : m3.mainSession with
      | none => simp [handleIdleEvent, hh, hms]
      | some mainSid => simp [handleIdleEvent, hh, hms]

/-- C6 witness: an idle event for a session never launched falls through to
the todo-continuation handling. -/
theorem unknown_session_passthrough_witness :
    handleSessionIdle exMgr "zz" 3 = (exMgr, none)
    ∧ (∀ gw, handleIdleEvent gw exMgr (some "zz") 3
        = { manager := exMgr, deliveries := [], todoRan := true })
    ∧ ∀ (gw : PromptRequest → Option String) (m2 : BackgroundManager)
        (s : String) (n2 : Nat),
        ((handleIdleEvent gw m2 (some s) n2).todoRan = true
          ↔ (handleSessionIdle m2 s n2).2 = none) :=
  unknown_session_passthrough exMgr "zz" 3 (by decide)

theorem sendNotification_ok {gw : PromptRequest → Option String} {mainSid : String}
    {n : CompletionNotification} (hgw : gw (buildRequest mainSid n false) = none) :
    sendNotification gw mainSid n = [buildRequest mainSid n false] := by
  simp [sendNotification, hgw]

theorem sendNotification_ctxErr {gw : PromptRequest → Option String} {mainSid : String}
    {n : CompletionNotification} {e : String}
    (hgw : gw (buildRequest mainSid n false) = some e) (hc : isContextError e = true) :
    sendNotification gw mainSid n
      = [buildRequest mainSid n false, buildRequest mainSid n true] := by
  simp [sendNotification, hgw, hc]

theorem sendNotification_otherErr {gw : PromptRequest → Option String} {mainSid : String}
    {n : CompletionNotification} {e : String}
    (hgw : gw (buildRequest mainSid n false) = some e) (hc : isContextError e = false) :
    sendNotification gw mainSid n = [buildRequest mainSid n false] := by
  simp [sendNotification, hgw, hc]

/-- C7: every prompt call attempted while delivering a notification is
tagged noReply equal to the negation of allComplete: partial-progress
notifications are silent, the final all-complete summary is not. -/
theorem delivery_noReply_negation (gw : PromptRequest → Option String)
    (mainSid : String) (n : CompletionNotification) :
    ∀ r ∈ sendNotification gw mainSid n, r.noReply = !n.allComplete := by
  intro r hr
  cases hgw : gw (buildRequest mainSid n false) with
  | none =>
    rw [sendNotification_ok hgw] at hr
    rcases List.mem_singleton.1 hr with rfl
    rfl
  | some e =>
    by_cases hctx : isContextError e = true
    · rw [sendNotification_ctxErr hgw hctx] at hr
      rcases List.mem_cons.1 hr with rfl | hr2
      · rfl
      · rcases List.mem_singleton.1 hr2 with rfl
        rfl
    · rw [sendNotification_otherErr hgw (Bool.not_eq_true _ ▸ hctx)] at hr
      rcases List.mem_singleton.1 hr with rfl
      rfl

/-- C7 witness: the initial delivery call of a concrete notification
carries noReply equal to the negation of its allComplete flag. -/
theorem delivery_noReply_negation_witness :
    (buildRequest "main" exNotifSimple false).noReply = !exNotifSimple.allComplete :=
  delivery_noReply_negation exGatewayCtxErr "main" exNotifSimple
    (buildRequest "main" exNotifSimple false) (by decide)

/-- C8: the main-session pointer is a single optional slot: a created
session with an id sets it exactly when the session has no parentID, and a
deleted session clears it exactly when the deleted id equals the current
pointer. -/
theorem main_session_slot (m : BackgroundManager) (i : SessionInfo) (s : String)
    (hid : i.id = some s) (hs : ¬ s = "") (hpar : ¬ i.parentID = some "")
    (m2 : BackgroundManager) (i2 : SessionInfo) (s2 : String)
    (hid2 : i2.id = some s2) (hs2 : ¬ s2 = "") :
    (handleSessionCreated m (some i)).mainSession
      = (if i.parentID = none then some s else m.mainSession)
    ∧ (handleSessionDeleted m2 (some i2)).mainSession
      = (if m2.mainSession = some s2 then none else m2.mainSession) := by
  constructor
  · cases hp : i.parentID with
    | none =>
      simp [handleSessionCreated, jsTruthy, hid, hs, hp]
    | some p =>
      have hpne : ¬ p = "" := fun hc => hpar (by rw [hp, hc])
      simp [handleSessionCreated, jsTruthy, hid, hs, hp, hpne]
  · simp only [handleSessionDeleted, Option.bind, hid2]
    by_cases hms : m2.mainSession = some s2
    · rw [if_pos ⟨hs2, hms⟩, if_pos hms]
    · rw [if_neg (fun hc => hms hc.2), if_neg hms]

/-- C8 witness: creating a parentless session sets the pointer; deleting the
pointed-to session clears it. -/
theorem main_session_slot_witness :
    (handleSessionCreated exMgr (some exInfoNew)).mainSession
      = (if exInfoNew.parentID = none then some "new" else exMgr.mainSession)
    ∧ (handleSessionDeleted exMgr (some exInfoDel)).mainSession
      = (if exMgr.mainSession = some "main" then none else exMgr.mainSession) :=
  main_session_slot exMgr exInfoNew "new" (by decide) (by decide) (by decide)
    exMgr exInfoDel "main" (by decide) (by decide)

/-- C4: delivery failures never propagate: a first delivery error whose
message text mentions the agent, model or undefined context is retried
exactly once with the agent and model omitted (whatever the retry itself
returns, no further call is made); any other error causes no retry; and
the manager state reached by the event hook is independent of the delivery
outcomes — nothing is rolled back. -/
theorem notifier_retry_policy (gw : PromptRequest → Option String)
    (mainSid : String) (n : CompletionNotification) (e : String) :
    (gw (buildRequest mainSid n false) = some e → isContextError e = true →
      sendNotification gw mainSid n
        = [buildRequest mainSid n false, buildRequest mainSid n true]
      ∧ (buildRequest mainSid n true).agent = none
      ∧ (buildRequest mainSid n true).model = none)
    ∧ (gw (buildRequest mainSid n false) = some e → isContextError e = false →
      sendNotification gw mainSid n = [buildRequest mainSid n false])
    ∧ ∀ (gw2 gw3 : PromptRequest → Option String) (m : BackgroundManager)
        (sid : Option String) (now : Nat),
        (handleIdleEvent gw2 m sid now).manager
          = (handleIdleEvent gw3 m sid now).manager := by
  refine ⟨?_, ?_, ?_⟩
  · intro hgw hctx
    exact ⟨sendNotification_ctxErr hgw hctx, rfl, rfl⟩
  · intro hgw hctx
    exact sendNotification_otherErr hgw hctx
  · intro gw2 gw3 m sid now
    cases sid with
    | none => rfl
    | some s =>
      rcases hh : handleSessionIdle m s now with ⟨m2, ores⟩
      cases ores with
      | none => simp [handleIdleEvent, hh]
      | some nn =>
        cases hms : m2.mainSession with
        | none => simp [handleIdleEvent, hh, hms]
        | some mainSid2 => simp [handleIdleEvent, hh, hms]

/-- C4 witness: a gateway rejecting the agent context triggers exactly one
context-free retry. -/
theorem notifier_retry_policy_witness :
    sendNotification exGatewayCtxErr "main" exNotifSimple
      = [buildRequest "main" exNotifSimple false, buildRequest "main" exNotifSimple true]
    ∧ (buildRequest "main" exNotifSimple true).agent = none
    ∧ (buildRequest "main" exNotifSimple true).model = none :=
  (notifier_retry_policy exGatewayCtxErr "main" exNotifSimple
    "agent is undefined").1 (by decide) (by decide)

/-- C9: when the gateway rejects session creation, launch still creates the
task record synchronously with status failed and the error text set, still
returns the task id, the failed task joins the batch, and no sequence of
idle events ever changes the record. -/
theorem launch_gateway_failure (m : BackgroundManager) (input : LaunchInput)
    (now : Nat) (e : String) (evts : List (String × Nat)) :
    ∃ task : BackgroundTask,
      task ∈ (launch m input now (Except.error e)).1.tasks
      ∧ task.id = (launch m input now (Except.error e)).2
      ∧ task.status = TaskStatus.failed
      ∧ task.error = some e
      ∧ task.completedAt = some now
      ∧ (launch m input now (Except.error e)).2
          ∈ (launch m input now (Except.error e)).1.batch
      ∧ task ∈ (runIdles (launch m input now (Except.error e)).1 evts).1.tasks := by
  refine ⟨{ id := freshId m, sessionID := "", agent := input.agent,
            description := input.description, prompt := input.prompt,
            status := TaskStatus.failed, startedAt := now,
            completedAt := some now, error := some e }, ?_, rfl, rfl, rfl, rfl, ?_, ?_⟩
  · simp [launch]
  · simp [launch]
  · apply runIdles_preserves_terminal
    · simp [launch]
    · rfl

/-- C10: when the idle handler yields a notification while the main-session
pointer is unset, the event hook attempts no delivery at all and still skips
the todo-continuation handling. -/
theorem notification_dropped_without_main (gw : PromptRequest → Option String)
    (m : BackgroundManager) (sid : String) (now : Nat) (n : CompletionNotification)
    (hms : m.mainSession = none)
    (hn : (handleSessionIdle m sid now).2 = some n) :
    handleIdleEvent gw m (some sid) now
      = { manager := (handleSessionIdle m sid now).1, deliveries := [],
          todoRan := false } := by
  rcases hh : handleSessionIdle m sid now with ⟨m2, ores⟩
  rw [hh] at hn
  simp only at hn
  subst hn
  obtain ⟨-, -, -, hmain, -⟩ := handleSessionIdle_some_facts hh
  have hms2 : m2.mainSession = none := by rw [hmain, hms]
  simp [handleIdleEvent, hh, hms2]

/-- C10 witness: a completed background task with no main session set leads
to a silent drop with the todo-continuation skipped. -/
theorem notification_dropped_without_main_witness :
    handleIdleEvent exGatewayCtxErr exMgrNoMain (some "s1") 5
      = { manager := (handleSessionIdle exMgrNoMain "s1" 5).1, deliveries := [],
          todoRan := false } :=
  notification_dropped_without_main exGatewayCtxErr exMgrNoMain "s1" 5
    exNotifNoMain rfl (by decide)
